import Mathlib

/-!
Verification of the AMP relay server core (amp-relay-go).

This file gives a shallow embedding, in Lean, of the parts of the Go source
that the verified properties talk about:

* `internal/protocol/message.go` — the tagged message model, `IsExpired`,
  `generateID`, and the CBOR codec (modelled at the level of the tagged
  field list the codec emits, with the `keyasint`/`omitempty` struct-tag
  semantics of the fxamacker cbor library);
* `internal/storage/store.go` — the in-memory `MessageStore`
  (`Save`/`Get`/`Delete`/`List`) with lazy expiry and the double-checked
  delete under the exclusive lock;
* `internal/auth/auth.go` — the placeholder authenticator
  (`ValidateToken`/`RefreshToken`) over its in-memory token table;
* `internal/transport/rfc002_auth.go` — the RFC-002 admission handshake
  (`HandleAuth`) with max message size negotiation;
* `internal/server/server.go` — the relay engine message path
  (`handleWebSocketMessage`, `handleRequest`, `handleEvent`, forwarding).

Go maps are modelled as association lists kept canonical (insertion erases
the key first); machine integers are modelled as `Nat`/`Int` with explicit
`% 2^64` where uint64 wrap-around matters; wall-clock reads are explicit
parameters; concurrency appears as an explicit interference point where the
source releases a shared lock before re-acquiring it exclusively.
-/

namespace AmpRelay

/-- Association lists standing for Go maps with `String` keys. -/
abbrev AList (α : Type) := List (String × α)

/-- Map lookup: the first binding of the key, if any. -/
def lookupKey {α : Type} (k : String) : AList α → Option α
  | [] => none
  | (k2, v) :: rest => if k2 = k then some v else lookupKey k rest

/-- Map deletion (`delete(m, k)` in Go): removes every binding of the key,
which on canonical states (no duplicate keys) is the single binding. -/
def eraseKey {α : Type} (k : String) : AList α → AList α
  | [] => []
  | (k2, v) :: rest => if k2 = k then eraseKey k rest else (k2, v) :: eraseKey k rest

/-- Map insertion (`m[k] = v` in Go): overwrites any existing binding. -/
def insertKey {α : Type} (k : String) (v : α) (l : AList α) : AList α :=
  (k, v) :: eraseKey k l

theorem lookupKey_eraseKey_self {α : Type} (k : String) (l : AList α) :
    lookupKey k (eraseKey k l) = none := by
  induction l with
  | nil => rfl
  | cons p rest ih =>
    obtain ⟨k2, v⟩ := p
    by_cases h : k2 = k
    · simp [eraseKey, h, ih]
    · simp [eraseKey, lookupKey, h, ih]

theorem lookupKey_eraseKey_ne {α : Type} (k k2 : String) (l : AList α) (h : k ≠ k2) :
    lookupKey k (eraseKey k2 l) = lookupKey k l := by
  induction l with
  | nil => rfl
  | cons p rest ih =>
    obtain ⟨k3, v⟩ := p
    by_cases h3 : k3 = k2
    · have h5 : k3 ≠ k := by
        intro hc
        exact h (by rw [← hc, h3])
      have h6 : k2 ≠ k := fun hc => h hc.symm
      simp [eraseKey, h3, lookupKey, h5, h6, ih]
    · simp only [eraseKey, h3, if_false, lookupKey]
      by_cases h4 : k3 = k
      · simp [h4]
      · simp [h4, ih]

theorem lookupKey_insertKey_self {α : Type} (k : String) (v : α) (l : AList α) :
    lookupKey k (insertKey k v l) = some v := by
  simp [insertKey, lookupKey]

theorem lookupKey_insertKey_ne {α : Type} (k k2 : String) (v : α) (l : AList α)
    (h : k ≠ k2) : lookupKey k (insertKey k2 v l) = lookupKey k l := by
  have h2 : k2 ≠ k := fun hc => h hc.symm
  simp [insertKey, lookupKey, h2, lookupKey_eraseKey_ne k k2 l h]

/-! ## Message model and codec — `internal/protocol/message.go`

The Go `Message` struct carries twelve fields with CBOR integer tags 1–12
(`keyasint`); tags 8–12 additionally carry `omitempty`.  The codec is the
fxamacker cbor library (v2.9.0); it is modelled here at the level of the
tagged field list it puts on the wire:

* a field with `omitempty` is omitted when its value encodes to an empty
  CBOR value (absent or zero-length byte string, absent or empty map,
  and for the `interface`-typed body also `0`, `false`, the empty text
  string and the empty byte string);
* a decoded body value is in the library's canonical Go form: a CBOR
  unsigned integer decodes into an `interface` as `uint64`, so encoding a
  non-negative Go `int` comes back as the unsigned form (`canonVal`);
* `Option` distinguishes Go `nil` slices/maps from present ones; `none`
  plays Go `nil`.

`ts` and `ttl` are `uint64` in Go and are modelled as `Nat` carrying the
uint64 value; the sum `ts + ttl` in `IsExpired` wraps, which is written
explicitly as `% 2 ^ 64`. -/

def UINT64_MOD : Nat := 2 ^ 64

/-- Values a Go interface-typed field (body, ext entries) can hold, as they
appear to the CBOR codec.  `cint` is a Go signed integer, `cuint` a Go
`uint64`; both encode to the same CBOR integer when non-negative. -/
inductive CVal where
  | cuint (n : Nat)
  | cint (n : Int)
  | cbool (b : Bool)
  | ctext (s : String)
  | cbytes (bs : List Nat)
deriving DecidableEq

/-- The canonical Go form the cbor library produces when decoding into an
interface value: non-negative integers come back as `uint64`. -/
def canonVal : CVal → CVal
  | .cint n => if 0 ≤ n then .cuint n.toNat else .cint n
  | v => v

/-- Empty CBOR values, which `omitempty` elides (fxamacker cbor default
`OmitEmptyCBORValue`): zero, false, empty text, empty byte string. -/
def cborEmptyVal : CVal → Bool
  | .cuint n => n == 0
  | .cint n => n == 0
  | .cbool b => b == false
  | .ctext s => s == ""
  | .cbytes bs => bs.isEmpty

/-- One tagged item of the encoded message map. -/
inductive CItem where
  | uintItem (n : Nat)
  | bytesItem (bs : List Nat)
  | textItem (s : String)
  | valItem (v : CVal)
  | extItem (kvs : List (String × CVal))
deriving DecidableEq

/-- The AMP v5.0 message, mirroring the Go struct field for field
(tags 1–12). -/
structure Message where
  v : Nat
  id : List Nat
  type : Nat
  ts : Nat
  ttl : Nat
  «from» : String
  «to» : String
  replyTo : Option (List Nat)
  threadID : Option (List Nat)
  sig : Option (List Nat)
  body : Option CVal
  ext : Option (List (String × CVal))
deriving DecidableEq

/-- `Message.IsExpired`: false when `ttl == 0`; otherwise compares the
current milliseconds against `ts + ttl`, a uint64 addition that wraps. -/
def Message.IsExpired (m : Message) (nowMs : Nat) : Bool :=
  if m.ttl = 0 then false
  else decide (nowMs > (m.ts + m.ttl) % UINT64_MOD)

/-- Byte `i` (0-based, most significant first) of the 8-byte big-endian
form of `n`. -/
def beByte (n i : Nat) : Nat := (n >>> (8 * (7 - i))) % 256

/-- The 8-byte big-endian encoding of a uint64. -/
def beBytes64 (n : Nat) : List Nat := (List.range 8).map (beByte n)

/-- `generateID`: 8 big-endian bytes of the millisecond timestamp followed
by the 8 bytes delivered by `crypto/rand.Read`.  A failing read panics in
the Go source; the panic is the `Except.error` outcome here, so no id is
produced on that path. -/
def generateID (nowMs : Nat) (rngRead : Except String (List Nat)) :
    Except String (List Nat) :=
  match rngRead with
  | .error e => .error ("crypto/rand failed: " ++ e)
  | .ok rnd => .ok (beBytes64 (nowMs % UINT64_MOD) ++ rnd)

/-- Recomposing the big-endian bytes yields the encoded number: `beBytes64`
really is the big-endian encoding of `n` for uint64-sized `n`. -/
theorem beBytes64_foldl (n : Nat) (h : n < UINT64_MOD) :
    (beBytes64 n).foldl (fun acc b => acc * 256 + b) 0 = n := by
  have hr : List.range 8 = [0, 1, 2, 3, 4, 5, 6, 7] := by decide
  have he : beBytes64 n = [n / 2 ^ 56 % 256, n / 2 ^ 48 % 256, n / 2 ^ 40 % 256,
      n / 2 ^ 32 % 256, n / 2 ^ 24 % 256, n / 2 ^ 16 % 256, n / 2 ^ 8 % 256,
      n / 2 ^ 0 % 256] := by
    simp [beBytes64, hr, beByte, Nat.shiftRight_eq_div_pow]
  rw [he]
  simp only [List.foldl]
  have h64 : n < 2 ^ 64 := h
  omega

/-- Wire items of an optional byte-string field (`omitempty`): omitted when
absent or zero-length. -/
def optBytesItems (tag : Nat) : Option (List Nat) → List (Nat × CItem)
  | none => []
  | some bs => if bs.isEmpty then [] else [(tag, .bytesItem bs)]

/-- Wire items of the body field (tag 11, `omitempty` on an interface
value): omitted when absent or when the value encodes to an empty CBOR
value; otherwise the wire carries the canonical value. -/
def bodyItems : Option CVal → List (Nat × CItem)
  | none => []
  | some v => if cborEmptyVal (canonVal v) then [] else [(11, .valItem (canonVal v))]

/-- Wire items of the ext map (tag 12, `omitempty`): omitted when absent or
empty; entry values are carried in canonical form. -/
def extItems : Option (List (String × CVal)) → List (Nat × CItem)
  | none => []
  | some kvs =>
    if kvs.isEmpty then []
    else [(12, .extItem (kvs.map (fun kv => (kv.1, canonVal kv.2))))]

/-- `Message.CBORMarshal`, at the tagged-field level: the seven mandatory
fields in tag order followed by the present optional fields. -/
def Message.CBORMarshal (m : Message) : List (Nat × CItem) :=
  [(1, .uintItem m.v), (2, .bytesItem m.id), (3, .uintItem m.type),
   (4, .uintItem m.ts), (5, .uintItem m.ttl), (6, .textItem m.«from»),
   (7, .textItem m.«to»)]
  ++ optBytesItems 8 m.replyTo ++ optBytesItems 9 m.threadID
  ++ optBytesItems 10 m.sig ++ bodyItems m.body ++ extItems m.ext

/-- The zero `Message`, the state Go's `CBORUnmarshal` decodes into. -/
def zeroMessage : Message :=
  ⟨0, [], 0, 0, 0, "", "", none, none, none, none, none⟩

/-- Assign one decoded tagged item to its struct field; unknown tags and
mismatched shapes leave the message unchanged. -/
def applyField (m : Message) : Nat × CItem → Message
  | (1, .uintItem n) => { m with v := n }
  | (2, .bytesItem bs) => { m with id := bs }
  | (3, .uintItem n) => { m with type := n }
  | (4, .uintItem n) => { m with ts := n }
  | (5, .uintItem n) => { m with ttl := n }
  | (6, .textItem s) => { m with «from» := s }
  | (7, .textItem s) => { m with «to» := s }
  | (8, .bytesItem bs) => { m with replyTo := some bs }
  | (9, .bytesItem bs) => { m with threadID := some bs }
  | (10, .bytesItem bs) => { m with sig := some bs }
  | (11, .valItem v) => { m with body := some v }
  | (12, .extItem kvs) => { m with ext := some kvs }
  | _ => m

/-- `Message.CBORUnmarshal`: fold the tagged items into the zero message. -/
def Message.CBORUnmarshal (items : List (Nat × CItem)) : Message :=
  items.foldl applyField zeroMessage

/-- Byte-field equality in the sense of the repository's round-trip tests
(`bytes.Equal`): an absent slice equals an empty one. -/
def optBytesEqv (a b : Option (List Nat)) : Prop := a.getD [] = b.getD []

/-- Field-by-field message equality as the repository's own round-trip
tests state it: plain equality on the scalar and text fields, `bytes.Equal`
on the byte-string fields, content equality on the ext map. -/
def Message.FieldEq (a b : Message) : Prop :=
  a.v = b.v ∧ a.id = b.id ∧ a.type = b.type ∧ a.ts = b.ts ∧ a.ttl = b.ttl ∧
  a.«from» = b.«from» ∧ a.«to» = b.«to» ∧
  optBytesEqv a.replyTo b.replyTo ∧ optBytesEqv a.threadID b.threadID ∧
  optBytesEqv a.sig b.sig ∧ a.body = b.body ∧ a.ext.getD [] = b.ext.getD []

instance (a b : Message) : Decidable (Message.FieldEq a b) := by
  unfold Message.FieldEq optBytesEqv
  infer_instance

/-- What an optional byte field looks like after one round trip: a present
empty slice was omitted on the wire and decodes as absent. -/
def normOptBytes : Option (List Nat) → Option (List Nat)
  | none => none
  | some bs => if bs.isEmpty then none else some bs

/-- What the body looks like after one round trip: values encoding to empty
CBOR values were omitted; surviving values are canonical. -/
def normBody : Option CVal → Option CVal
  | none => none
  | some v => if cborEmptyVal (canonVal v) then none else some (canonVal v)

/-- What the ext map looks like after one round trip: absent when it was
absent or empty, with entry values in canonical form otherwise. -/
def normExt : Option (List (String × CVal)) → Option (List (String × CVal))
  | none => none
  | some kvs =>
    if kvs.isEmpty then none
    else some (kvs.map (fun kv => (kv.1, canonVal kv.2)))

/-! ## In-memory message store — `internal/storage/store.go`

`MemoryStore` is a map from id to a stored entry (message plus expiry)
behind a reader/writer lock.  Wall-clock reads (`time.Now()`) are explicit
parameters; times are absolute instants (`Int`, nanoseconds like Go's
`time.Time`), and a zero `time.Time` expiry (meaning "never expires") is
`Option.none`.  `Get` samples the clock twice — once under the shared lock
and once for the double check under the exclusive lock — and between the
two lock regions other writers may run, which appears here as an explicit
`interfere` function applied to the store at that point.  The generic
element type `α` stands for `*protocol.Message`. -/

/-- One stored entry: the message and its absolute expiry (none = never). -/
structure MemEntry (α : Type) where
  message : α
  expiry : Option Int
deriving DecidableEq

/-- The `MemoryStore` contents: a map from id to stored entry. -/
abbrev MemStore (α : Type) := AList (MemEntry α)

/-- The lazy-expiry test: `!stored.expiry.IsZero() &&
time.Now().After(stored.expiry)` — never for a zero expiry, otherwise
strictly after the expiry instant. -/
def MemEntry.expiredAt {α : Type} (e : MemEntry α) (now : Int) : Bool :=
  match e.expiry with
  | none => false
  | some t => decide (now > t)

/-- `MemoryStore.Save`: positive retention becomes an absolute expiry of
`now + ttl`; zero or negative retention means no expiry.  Always succeeds
(the in-memory store's error is always nil). -/
def MemoryStore.Save {α : Type} (s : MemStore α) (now : Int) (key : String)
    (msg : α) (ttl : Int) : MemStore α × Option String :=
  let expiry : Option Int := if ttl > 0 then some (now + ttl) else none
  (insertKey key ⟨msg, expiry⟩ s, none)

/-- `MemoryStore.Get` with the interference point made explicit: the entry
is read under the shared lock at time `now`; when it is found expired the
shared lock is dropped, concurrent writers (`interfere`) may run, and under
the exclusive lock the entry is re-read and re-tested at time `now2` before
being deleted.  Returns the final store, the result, and the error (always
nil for the in-memory store). -/
def MemoryStore.GetI {α : Type} (s : MemStore α) (now now2 : Int) (id : String)
    (interfere : MemStore α → MemStore α) :
    MemStore α × Option α × Option String :=
  match lookupKey id s with
  | none => (s, none, none)
  | some stored =>
    if stored.expiredAt now then
      let s2 := interfere s
      let s3 :=
        match lookupKey id s2 with
        | none => s2
        | some stored2 => if stored2.expiredAt now2 then eraseKey id s2 else s2
      (s3, none, none)
    else (s, some stored.message, none)

/-- `MemoryStore.Get` as executed without interleaved writers. -/
def MemoryStore.Get {α : Type} (s : MemStore α) (now now2 : Int) (id : String) :
    MemStore α × Option α × Option String :=
  MemoryStore.GetI s now now2 id (fun x => x)

/-! ## Placeholder authenticator — `internal/auth/auth.go`

`PlaceholderAuthenticator` keeps a map from token id to `TokenClaims`
behind a reader/writer lock.  Times are absolute instants (`Int`).
`RefreshToken` calls `generateTokenID()` for the fresh random token id;
that CSPRNG output is the explicit `newTok` parameter here. -/

/-- `TokenClaims` as stored by the placeholder authenticator. -/
structure TokenClaims where
  did : String
  issuedAt : Int
  expiresAt : Int
  tokenID : String
  extra : AList String
deriving DecidableEq

/-- `TokenClaims.IsExpired`: `time.Now().After(c.ExpiresAt)`. -/
def TokenClaims.IsExpired (c : TokenClaims) (now : Int) : Bool :=
  decide (now > c.expiresAt)

/-- `AuthError` with its stable code and human-readable message. -/
structure AuthError where
  code : String
  msg : String
deriving DecidableEq

def ErrCodeInvalidToken : String := "invalid_token"

def ErrCodeExpiredToken : String := "expired_token"

/-- The placeholder token table. -/
abbrev TokenStore := AList TokenClaims

/-- `PlaceholderAuthenticator.ValidateToken`: unknown tokens are
`invalid_token`; a stored but expired token is deleted at this read and
reported `expired_token`; otherwise the claims are returned. -/
def PlaceholderAuthenticator.ValidateToken (s : TokenStore) (now : Int)
    (token : String) : TokenStore × Except AuthError TokenClaims :=
  match lookupKey token s with
  | none => (s, .error ⟨ErrCodeInvalidToken, "token not found"⟩)
  | some claims =>
    if claims.IsExpired now then
      (eraseKey token s, .error ⟨ErrCodeExpiredToken, "token has expired"⟩)
    else (s, .ok claims)

/-- The claims `RefreshToken` builds for the new token: same DID and extra
claims, fresh issue and expiry instants, the new token id. -/
def refreshedClaims (claims : TokenClaims) (now dur : Int) (newTok : String) :
    TokenClaims :=
  ⟨claims.did, now, now + dur, newTok, claims.extra⟩

/-- `PlaceholderAuthenticator.RefreshToken`: validate the old token, then
delete it and insert the new one in a single exclusive lock section (one
atomic state transition here).  `dur` is the configured token duration and
`newTok` the fresh id from the CSPRNG. -/
def PlaceholderAuthenticator.RefreshToken (s : TokenStore) (now dur : Int)
    (token newTok : String) : TokenStore × Except AuthError String :=
  match PlaceholderAuthenticator.ValidateToken s now token with
  | (s1, .error e) => (s1, .error e)
  | (s1, .ok claims) =>
    (insertKey newTok (refreshedClaims claims now dur newTok) (eraseKey token s1),
     .ok newTok)

/-! ## RFC-002 admission handshake — `internal/transport/rfc002_auth.go`

`HandleAuth` runs after the JSON frame has been unmarshalled (a frame that
fails to parse is answered `invalid_format` before any of this; the model
starts from the parsed frame).  Times are Unix seconds (`Int`). -/

/-- The parsed auth frame; absent JSON fields hold Go zero values. -/
structure AuthFrame where
  type : String
  did : String
  signature : String
  algorithm : String
  timestamp : Int
  maxMsgSize : Int
  nonce : String
deriving DecidableEq

/-- The auth response frame. -/
structure AuthResponse where
  type : String
  serverDID : String
  error : String
  errorCode : String
  maxMsgSize : Int
  timestamp : Int
deriving DecidableEq

/-- The handler state `HandleAuth` reads: the server DID and the configured
default (server-side) max message size. -/
structure WebSocketAuthHandler where
  serverDID : String
  defaultMaxMsgSize : Int
deriving DecidableEq

/-- `NewWebSocketAuthHandler`: server default of 1 MiB. -/
def NewWebSocketAuthHandler : WebSocketAuthHandler :=
  ⟨"", 1024 * 1024⟩

/-- `HandleAuth` on a parsed frame: frame type, non-empty DID and ±300 s
timestamp window are checked in order; on success the response carries the
negotiated max message size (the client value when it is positive and below
the server value, the server value otherwise). -/
def WebSocketAuthHandler.HandleAuth (h : WebSocketAuthHandler) (f : AuthFrame)
    (now : Int) : AuthResponse :=
  if f.type ≠ "auth" then
    ⟨"auth_fail", "", "expected auth frame", "invalid_type", 0, now⟩
  else if f.did = "" then
    ⟨"auth_fail", "", "DID cannot be empty", "invalid_did", 0, now⟩
  else if f.timestamp < now - 300 ∨ f.timestamp > now + 300 then
    ⟨"auth_fail", "", "timestamp out of acceptable range", "invalid_timestamp", 0, now⟩
  else
    let negotiatedMax :=
      if f.maxMsgSize > 0 ∧ f.maxMsgSize < h.defaultMaxMsgSize then f.maxMsgSize
      else h.defaultMaxMsgSize
    ⟨"auth_ok", h.serverDID, "", "", negotiatedMax, now⟩

/-! ## Relay engine message path — `internal/server/server.go`

`handleWebSocketMessage` is invoked by the transport with the raw frame; a
frame that fails CBOR decoding is answered with an "invalid message format"
error before anything below runs, so the model starts from the decoded
message.  The message shape is the one this server version compiles
against: string ids, string type names ("request", "response", "error",
"event"), `Source`/`Destination`/`Action`/`CorrelationID` routing fields,
and a signed `TTL` count.  The store is the in-memory `MessageStore`;
retention durations are `time.Duration` nanoseconds.  Outbound writes
(`SendToClient`) are collected as effects; Go map iteration order, which is
unspecified, is modelled as list order.  The error values the handlers
return to the transport (which only logs them) are not modelled; the
client-visible frames are. -/

/-- The message struct this server version routes on. -/
structure ServerMessage where
  id : String
  type : String
  timestamp : Int
  source : String
  destination : String
  action : String
  payload : List Nat
  metadata : AList String
  correlationID : String
  version : String
  signature : List Nat
  ttl : Int
deriving DecidableEq

/-- `ClientInfo` as kept in the engine's client table. -/
structure ClientInfo where
  id : String
  did : String
  connectedAt : Int
  lastActivity : Int
  metadata : AList String
deriving DecidableEq

/-- A registered action handler: `fn(msg) → (response?, error?)`. -/
abbrev RouteHandler := ServerMessage → Except String (Option ServerMessage)

/-- The engine state the message path touches: message store, client table,
route table. -/
structure RelayState where
  store : MemStore ServerMessage
  clients : AList ClientInfo
  routes : AList RouteHandler

/-- A client-visible outbound frame. -/
inductive Effect where
  | send (clientID : String) (msg : ServerMessage)
  | sendError (clientID : String) (code : String) (text : String)
      (correlationID : String)
deriving DecidableEq

/-- The retention the engine passes to `store.Save` (`handleRequest` and
`handleEvent`): the configured default, or `time.Duration(msg.TTL) *
time.Second` — the TTL count taken as seconds — when `msg.TTL > 0`. -/
def effectiveRetentionNs (msgTTL defaultTTLNs : Int) : Int :=
  if msgTTL > 0 then msgTTL * 1000000000 else defaultTTLNs

/-- `updateClientActivity`: refresh the activity instant, registering the
client (with Go zero values) on first contact. -/
def updateClientActivity (clients : AList ClientInfo) (clientID : String)
    (now : Int) : AList ClientInfo :=
  match lookupKey clientID clients with
  | some info => insertKey clientID { info with lastActivity := now } clients
  | none => insertKey clientID ⟨clientID, "", now, now, []⟩ clients

/-- The client lookup inside `forwardMessage`: the first client whose DID
matches the destination (Go map iteration as list order). -/
def findClientByDID (did : String) : AList ClientInfo → Option String
  | [] => none
  | (cid, info) :: rest =>
    if info.did = did then some cid else findClientByDID did rest

/-- The tail of `handleRequest`: forward to the destination client when one
is addressed and connected; an absent destination client leaves the message
in the store with no error to the sender. -/
def forwardIfAddressed (st : RelayState) (msg : ServerMessage) : List Effect :=
  if msg.destination ≠ "" ∧ msg.destination ≠ "relay-server" then
    match findClientByDID msg.destination st.clients with
    | some cid => [.send cid msg]
    | none => []
  else []

/-- `handleRequest`: store the message (retention per
`effectiveRetentionNs`), then dispatch to a registered action handler —
whose non-nil response goes back to the sender as a "response" with
`CorrelationID = request id`, short-circuiting forwarding — and otherwise
forward to the addressed destination. -/
def handleRequest (defaultTTLNs : Int) (st : RelayState) (clientID : String)
    (msg : ServerMessage) (now : Int) : RelayState × List Effect :=
  let ttl := effectiveRetentionNs msg.ttl defaultTTLNs
  match MemoryStore.Save st.store now msg.id msg ttl with
  | (store2, some _) =>
    ({ st with store := store2 },
     [.sendError clientID "storage_error" "Failed to store message" msg.id])
  | (store2, none) =>
    let st2 := { st with store := store2 }
    match lookupKey msg.action st.routes with
    | some handler =>
      match handler msg with
      | .error e => (st2, [.sendError clientID "handler_error" e msg.id])
      | .ok (some resp) =>
        (st2, [.send clientID { resp with correlationID := msg.id, type := "response" }])
      | .ok none => (st2, forwardIfAddressed st2 msg)
    | none => (st2, forwardIfAddressed st2 msg)

/-- `handleEvent`: store the event, then broadcast it to every client
except the sender. -/
def handleEvent (defaultTTLNs : Int) (st : RelayState) (clientID : String)
    (msg : ServerMessage) (now : Int) : RelayState × List Effect :=
  let ttl := effectiveRetentionNs msg.ttl defaultTTLNs
  match MemoryStore.Save st.store now msg.id msg ttl with
  | (store2, some _) => ({ st with store := store2 }, [])
  | (store2, none) =>
    let st2 := { st with store := store2 }
    (st2, (st2.clients.filter (fun p => p.1 ≠ clientID)).map
      (fun p => .send p.1 msg))

/-- `handleWebSocketMessage` on a decoded message: refresh the sender's
activity record, then dispatch on the message type; unknown types are an
"unsupported message type" error with no further processing. -/
def handleWebSocketMessage (defaultTTLNs : Int) (st : RelayState)
    (clientID : String) (msg : ServerMessage) (now : Int) :
    RelayState × List Effect × Option String :=
  let st1 := { st with clients := updateClientActivity st.clients clientID now }
  if msg.type = "request" then
    let (st2, effs) := handleRequest defaultTTLNs st1 clientID msg now
    (st2, effs, none)
  else if msg.type = "event" then
    let (st2, effs) := handleEvent defaultTTLNs st1 clientID msg now
    (st2, effs, none)
  else (st1, [], some "unsupported message type")

/-! ## Verified properties -/

/-- C8: for every time `now` (the uint64 millisecond value) and every
8-byte CSPRNG read, `generateID` returns exactly 16 bytes whose first 8
bytes are the big-endian encoding of `now` and whose last 8 bytes are the
CSPRNG output; a failing CSPRNG read makes the process fail (panic), so no
id is produced on that path. -/
theorem generateID_layout (nowMs : Nat) (rnd : List Nat)
    (hn : nowMs < UINT64_MOD) (hr : rnd.length = 8) :
    generateID nowMs (.ok rnd) = .ok (beBytes64 nowMs ++ rnd) ∧
    (beBytes64 nowMs ++ rnd).length = 16 ∧
    (beBytes64 nowMs ++ rnd).take 8 = beBytes64 nowMs ∧
    (beBytes64 nowMs ++ rnd).drop 8 = rnd ∧
    ∀ e, generateID nowMs (.error e) = .error ("crypto/rand failed: " ++ e) := by
  have hb : (beBytes64 nowMs).length = 8 := by simp [beBytes64]
  refine ⟨?_, ?_, ?_, ?_, fun e => rfl⟩
  · simp [generateID, Nat.mod_eq_of_lt hn]
  · simp [hb, hr]
  · have h2 := List.take_left (beBytes64 nowMs) rnd
    rwa [hb] at h2
  · have h2 := List.drop_left (beBytes64 nowMs) rnd
    rwa [hb] at h2

/-- Witness for C8 at a concrete clock value and CSPRNG read. -/
theorem generateID_layout_witness :
    5 < UINT64_MOD ∧ ([1, 2, 3, 4, 5, 6, 7, 8] : List Nat).length = 8 ∧
    generateID 5 (.ok [1, 2, 3, 4, 5, 6, 7, 8]) =
      .ok (beBytes64 5 ++ [1, 2, 3, 4, 5, 6, 7, 8]) :=
  ⟨by decide, by decide,
   (generateID_layout 5 [1, 2, 3, 4, 5, 6, 7, 8] (by decide) (by decide)).1⟩

/-- C9: a stored token whose expiry instant is in the past is reported
`expired_token` by the first `ValidateToken` call, which also deletes it at
that read; any later `ValidateToken` on the same token answers
`invalid_token` (the same answer a never-stored token gets) and leaves the
table unchanged. -/
theorem ValidateToken_expired_then_invalid (s : TokenStore) (tok : String)
    (c : TokenClaims) (now now2 : Int) (hl : lookupKey tok s = some c)
    (he : c.expiresAt < now) :
    PlaceholderAuthenticator.ValidateToken s now tok =
      (eraseKey tok s, .error ⟨ErrCodeExpiredToken, "token has expired"⟩) ∧
    PlaceholderAuthenticator.ValidateToken (eraseKey tok s) now2 tok =
      (eraseKey tok s, .error ⟨ErrCodeInvalidToken, "token not found"⟩) := by
  have h1 : c.IsExpired now = true := by
    simp only [TokenClaims.IsExpired, decide_eq_true_eq]
    omega
  constructor
  · simp [PlaceholderAuthenticator.ValidateToken, hl, h1]
  · simp [PlaceholderAuthenticator.ValidateToken, lookupKey_eraseKey_self]

/-- Witness for C9 on a one-token table. -/
theorem ValidateToken_expired_then_invalid_witness :
    lookupKey "t1" [("t1", (⟨"did:web:alice", 0, 5, "t1", []⟩ : TokenClaims))] =
      some ⟨"did:web:alice", 0, 5, "t1", []⟩ ∧
    PlaceholderAuthenticator.ValidateToken
        [("t1", (⟨"did:web:alice", 0, 5, "t1", []⟩ : TokenClaims))] 9 "t1" =
      (eraseKey "t1" [("t1", (⟨"did:web:alice", 0, 5, "t1", []⟩ : TokenClaims))],
       .error ⟨ErrCodeExpiredToken, "token has expired"⟩) :=
  ⟨by decide,
   (ValidateToken_expired_then_invalid
      [("t1", (⟨"did:web:alice", 0, 5, "t1", []⟩ : TokenClaims))] "t1"
      ⟨"did:web:alice", 0, 5, "t1", []⟩ 9 11 (by decide) (by decide)).1⟩

/-- C10: `Get` on an id with no entry returns a nil message and a nil
error — absence is an empty result, not an error — and leaves the store
untouched. -/
theorem MemoryStore_Get_missing_nil_nil (s : MemStore Message)
    (now now2 : Int) (id : String) (h : lookupKey id s = none) :
    MemoryStore.Get s now now2 id = (s, none, none) := by
  simp [MemoryStore.Get, MemoryStore.GetI, h]

/-- Witness for C10 on a one-entry store and an absent id. -/
theorem MemoryStore_Get_missing_nil_nil_witness :
    lookupKey "b" [("a", (⟨zeroMessage, some 10⟩ : MemEntry Message))] = none ∧
    MemoryStore.Get [("a", (⟨zeroMessage, some 10⟩ : MemEntry Message))] 5 5 "b" =
      ([("a", ⟨zeroMessage, some 10⟩)], none, none) :=
  ⟨by decide,
   MemoryStore_Get_missing_nil_nil [("a", ⟨zeroMessage, some 10⟩)] 5 5 "b" (by decide)⟩

/-- C6: refreshing a stored, unexpired token with a fresh CSPRNG token id
(fresh: distinct from the old id, with a non-negative configured duration)
succeeds and returns the new id; the resulting table is the old table with
the old token deleted and the new one inserted in the single exclusive
section (one transition); afterwards the old token validates as
`invalid_token` and the new token validates to claims carrying the old
DID. -/
theorem RefreshToken_rotates (s : TokenStore) (tok newTok : String)
    (c : TokenClaims) (now dur : Int) (hl : lookupKey tok s = some c)
    (hv : ¬ now > c.expiresAt) (hne : newTok ≠ tok) (hd : 0 ≤ dur) :
    PlaceholderAuthenticator.RefreshToken s now dur tok newTok =
      (insertKey newTok (refreshedClaims c now dur newTok) (eraseKey tok s),
       .ok newTok) ∧
    newTok ≠ tok ∧
    (PlaceholderAuthenticator.ValidateToken
        (insertKey newTok (refreshedClaims c now dur newTok) (eraseKey tok s))
        now tok).2 = .error ⟨ErrCodeInvalidToken, "token not found"⟩ ∧
    (PlaceholderAuthenticator.ValidateToken
        (insertKey newTok (refreshedClaims c now dur newTok) (eraseKey tok s))
        now newTok).2 = .ok (refreshedClaims c now dur newTok) ∧
    (refreshedClaims c now dur newTok).did = c.did := by
  have hexp : c.IsExpired now = false := by
    simp only [TokenClaims.IsExpired, decide_eq_false_iff_not]
    omega
  have hne2 : tok ≠ newTok := fun h => hne h.symm
  refine ⟨?_, hne, ?_, ?_, rfl⟩
  · simp [PlaceholderAuthenticator.RefreshToken,
      PlaceholderAuthenticator.ValidateToken, hl, hexp]
  · have hold : lookupKey tok
        (insertKey newTok (refreshedClaims c now dur newTok) (eraseKey tok s)) =
        none := by
      rw [lookupKey_insertKey_ne tok newTok _ _ hne2, lookupKey_eraseKey_self]
    simp [PlaceholderAuthenticator.ValidateToken, hold]
  · have hnew : lookupKey newTok
        (insertKey newTok (refreshedClaims c now dur newTok) (eraseKey tok s)) =
        some (refreshedClaims c now dur newTok) := lookupKey_insertKey_self _ _ _
    have hfresh : (refreshedClaims c now dur newTok).IsExpired now = false := by
      simp only [TokenClaims.IsExpired, refreshedClaims, decide_eq_false_iff_not]
      omega
    simp [PlaceholderAuthenticator.ValidateToken, hnew, hfresh]

/-- Witness for C6 on a one-token table. -/
theorem RefreshToken_rotates_witness :
    lookupKey "t1" [("t1", (⟨"did:web:bob", 0, 50, "t1", []⟩ : TokenClaims))] =
      some ⟨"did:web:bob", 0, 50, "t1", []⟩ ∧
    PlaceholderAuthenticator.RefreshToken
        [("t1", (⟨"did:web:bob", 0, 50, "t1", []⟩ : TokenClaims))] 10 100 "t1" "t2" =
      ([("t2", ⟨"did:web:bob", 10, 110, "t2", []⟩)], .ok "t2") :=
  ⟨by decide,
   by
    have h := (RefreshToken_rotates
        [("t1", (⟨"did:web:bob", 0, 50, "t1", []⟩ : TokenClaims))] "t1" "t2"
        ⟨"did:web:bob", 0, 50, "t1", []⟩ 10 100 (by decide) (by decide)
        (by decide) (by decide)).1
    simpa [insertKey, eraseKey, refreshedClaims] using h⟩

/-- C5: `Get` of an entry found expired under the shared lock returns no
message and no error whatever concurrent writers do at the lock upgrade;
with no interference the entry is removed from the store; and the
double check under the exclusive lock (entry still present, still expired)
means a fresh unexpired copy written concurrently is left untouched. -/
theorem MemoryStore_Get_lazy_expiry (s : MemStore Message) (id : String)
    (m : Message) (e : Int) (now now2 : Int)
    (hl : lookupKey id s = some ⟨m, some e⟩) (he : e < now) (h12 : now ≤ now2) :
    (∀ g, (MemoryStore.GetI s now now2 id g).2 = (none, none)) ∧
    (MemoryStore.Get s now now2 id).1 = eraseKey id s ∧
    (∀ g m2 e2, lookupKey id (g s) = some ⟨m2, e2⟩ →
      MemEntry.expiredAt ⟨m2, e2⟩ now2 = false →
      (MemoryStore.GetI s now now2 id g).1 = g s) := by
  have hexp : MemEntry.expiredAt (⟨m, some e⟩ : MemEntry Message) now = true := by
    simp only [MemEntry.expiredAt, decide_eq_true_eq]
    omega
  refine ⟨?_, ?_, ?_⟩
  · intro g
    simp only [MemoryStore.GetI, hl, hexp, if_true]
  · have hexp2 : MemEntry.expiredAt (⟨m, some e⟩ : MemEntry Message) now2 = true := by
      simp only [MemEntry.expiredAt, decide_eq_true_eq]
      omega
    simp only [MemoryStore.Get, MemoryStore.GetI, hl, hexp, if_true, hexp2]
  · intro g m2 e2 hg hne
    simp only [MemoryStore.GetI, hl, hexp, if_true, hg, hne]
    simp

/-- Witness for C5 on a one-entry store with an expired entry and no
interference. -/
theorem MemoryStore_Get_lazy_expiry_witness :
    lookupKey "a" [("a", (⟨zeroMessage, some 5⟩ : MemEntry Message))] =
      some ⟨zeroMessage, some 5⟩ ∧ (5 : Int) < 10 ∧
    (MemoryStore.Get [("a", (⟨zeroMessage, some 5⟩ : MemEntry Message))] 10 10 "a").1 =
      eraseKey "a" [("a", ⟨zeroMessage, some 5⟩)] :=
  ⟨by decide, by decide,
   (MemoryStore_Get_lazy_expiry [("a", ⟨zeroMessage, some 5⟩)] "a" zeroMessage
      5 10 10 (by decide) (by decide) (by decide)).2.1⟩

/-- C7: on a parsed auth frame the handler, as constructed with the 1 MiB
server default, answers `auth_fail`/`invalid_did` for an empty DID;
`auth_fail`/`invalid_timestamp` when the frame timestamp is more than
300 s from server time; and otherwise `auth_ok` carrying
`min(client, server)` when the client requested a positive size and the
server value alone when it requested 0 or omitted the field, the server
value being at least 1 MiB. -/
theorem HandleAuth_validation (f : AuthFrame) (now : Int) (ht : f.type = "auth") :
    (f.did = "" →
      WebSocketAuthHandler.HandleAuth NewWebSocketAuthHandler f now =
        ⟨"auth_fail", "", "DID cannot be empty", "invalid_did", 0, now⟩) ∧
    (f.did ≠ "" → |f.timestamp - now| > 300 →
      WebSocketAuthHandler.HandleAuth NewWebSocketAuthHandler f now =
        ⟨"auth_fail", "", "timestamp out of acceptable range",
         "invalid_timestamp", 0, now⟩) ∧
    (f.did ≠ "" → |f.timestamp - now| ≤ 300 →
      (WebSocketAuthHandler.HandleAuth NewWebSocketAuthHandler f now).type =
        "auth_ok" ∧
      (WebSocketAuthHandler.HandleAuth NewWebSocketAuthHandler f now).maxMsgSize =
        (if f.maxMsgSize > 0
          then min f.maxMsgSize NewWebSocketAuthHandler.defaultMaxMsgSize
          else NewWebSocketAuthHandler.defaultMaxMsgSize) ∧
      NewWebSocketAuthHandler.defaultMaxMsgSize ≥ 1024 * 1024) := by
  refine ⟨?_, ?_, ?_⟩
  · intro hdid
    simp [WebSocketAuthHandler.HandleAuth, ht, hdid]
  · intro hdid habs
    have hrange : f.timestamp < now - 300 ∨ f.timestamp > now + 300 := by
      rcases abs_cases (f.timestamp - now) with ⟨heq, _⟩ | ⟨heq, _⟩ <;> omega
    simp [WebSocketAuthHandler.HandleAuth, ht, hdid, hrange]
  · intro hdid habs
    have hrange : ¬ (f.timestamp < now - 300 ∨ f.timestamp > now + 300) := by
      rcases abs_cases (f.timestamp - now) with ⟨heq, _⟩ | ⟨heq, _⟩ <;> omega
    refine ⟨?_, ?_, by norm_num [NewWebSocketAuthHandler]⟩
    · simp [WebSocketAuthHandler.HandleAuth, ht, hdid, hrange]
    · by_cases hpos : f.maxMsgSize > 0
      · by_cases hlt : f.maxMsgSize < NewWebSocketAuthHandler.defaultMaxMsgSize
        · have hmin : min f.maxMsgSize NewWebSocketAuthHandler.defaultMaxMsgSize =
              f.maxMsgSize := by omega
          simp [WebSocketAuthHandler.HandleAuth, ht, hdid, hrange, hpos, hlt, hmin]
        · have hmin : min f.maxMsgSize NewWebSocketAuthHandler.defaultMaxMsgSize =
              NewWebSocketAuthHandler.defaultMaxMsgSize := by omega
          simp [WebSocketAuthHandler.HandleAuth, ht, hdid, hrange, hpos, hlt, hmin]
      · simp [WebSocketAuthHandler.HandleAuth, ht, hdid, hrange, hpos]

/-- Witness for C7: a well-formed frame inside the timestamp window with no
requested size gets `auth_ok` at the server's 1 MiB. -/
theorem HandleAuth_validation_witness :
    (⟨"auth", "did:web:alice", "sig", "ed25519", 120, 0, ""⟩ : AuthFrame).did ≠ "" ∧
    |(120 : Int) - 100| ≤ 300 ∧
    (WebSocketAuthHandler.HandleAuth NewWebSocketAuthHandler
        ⟨"auth", "did:web:alice", "sig", "ed25519", 120, 0, ""⟩ 100).type =
      "auth_ok" :=
  ⟨by decide, by decide,
   ((HandleAuth_validation ⟨"auth", "did:web:alice", "sig", "ed25519", 120, 0, ""⟩
      100 rfl).2.2 (by decide) (by decide)).1⟩

/-- C4 (counterexample): `m.Ts + m.TTL` is uint64 addition and wraps, so
the claimed "expired exactly when now exceeds ts + ttl" fails once the sum
overflows: at `ts = 2^64 - 1`, `ttl = 2` the wrapped sum is 1 and the
message reads as expired already at `now = 3`, although 3 does not exceed
the mathematical `ts + ttl`. -/
theorem Message_IsExpired_uint64_wrap :
    Message.IsExpired { zeroMessage with ts := UINT64_MOD - 1, ttl := 2 } 3 = true ∧
    ¬ (3 > ({ zeroMessage with ts := UINT64_MOD - 1, ttl := 2 } : Message).ts +
        ({ zeroMessage with ts := UINT64_MOD - 1, ttl := 2 } : Message).ttl) := by
  constructor
  · decide
  · decide

/-- C4 (as amended): `IsExpired` is false when `ttl = 0`; otherwise it is
true exactly when `now` exceeds the uint64-wrapped sum `(ts + ttl) % 2^64`;
when the sum does not overflow this is the claimed strict comparison
against `ts + ttl`, false at exactly `now = ts + ttl` and true at
`now = ts + ttl + 1`. -/
theorem Message_IsExpired_boundary (m : Message) (nowMs : Nat) :
    (m.ttl = 0 → m.IsExpired nowMs = false) ∧
    (m.ttl ≠ 0 →
      (m.IsExpired nowMs = true ↔ nowMs > (m.ts + m.ttl) % UINT64_MOD)) ∧
    (m.ttl ≠ 0 → m.ts + m.ttl + 1 < UINT64_MOD →
      m.IsExpired (m.ts + m.ttl) = false ∧
      m.IsExpired (m.ts + m.ttl + 1) = true) := by
  refine ⟨?_, ?_, ?_⟩
  · intro h
    simp [Message.IsExpired, h]
  · intro h
    simp [Message.IsExpired, h]
  · intro h hlt
    have hmod : (m.ts + m.ttl) % UINT64_MOD = m.ts + m.ttl :=
      Nat.mod_eq_of_lt (by omega)
    constructor
    · simp only [Message.IsExpired, h, if_false, hmod, decide_eq_false_iff_not]
      omega
    · simp only [Message.IsExpired, h, if_false, hmod, decide_eq_true_eq]
      omega

/-- Witness for the amended C4 at a small concrete message. -/
theorem Message_IsExpired_boundary_witness :
    ({ zeroMessage with ts := 1000, ttl := 60 } : Message).ttl ≠ 0 ∧
    (1000 : Nat) + 60 + 1 < UINT64_MOD ∧
    Message.IsExpired { zeroMessage with ts := 1000, ttl := 60 } 1060 = false ∧
    Message.IsExpired { zeroMessage with ts := 1000, ttl := 60 } 1061 = true :=
  ⟨by decide, by decide,
   ((Message_IsExpired_boundary { zeroMessage with ts := 1000, ttl := 60 } 0).2.2
      (by decide) (by decide)).1,
   ((Message_IsExpired_boundary { zeroMessage with ts := 1000, ttl := 60 } 0).2.2
      (by decide) (by decide)).2⟩

theorem foldl_optBytesItems8 (ob : Option (List Nat)) (mm : Message) :
    (optBytesItems 8 ob).foldl applyField mm =
      (match normOptBytes ob with
       | none => mm
       | some bs => { mm with replyTo := some bs }) := by
  rcases ob with _ | ⟨_ | ⟨b, bs⟩⟩ <;> rfl

theorem foldl_optBytesItems9 (ob : Option (List Nat)) (mm : Message) :
    (optBytesItems 9 ob).foldl applyField mm =
      (match normOptBytes ob with
       | none => mm
       | some bs => { mm with threadID := some bs }) := by
  rcases ob with _ | ⟨_ | ⟨b, bs⟩⟩ <;> rfl

theorem foldl_optBytesItems10 (ob : Option (List Nat)) (mm : Message) :
    (optBytesItems 10 ob).foldl applyField mm =
      (match normOptBytes ob with
       | none => mm
       | some bs => { mm with sig := some bs }) := by
  rcases ob with _ | ⟨_ | ⟨b, bs⟩⟩ <;> rfl

theorem foldl_bodyItems (ob : Option CVal) (mm : Message) :
    (bodyItems ob).foldl applyField mm =
      (match normBody ob with
       | none => mm
       | some v2 => { mm with body := some v2 }) := by
  rcases ob with _ | v2
  · rfl
  · by_cases hbv : cborEmptyVal (canonVal v2)
    · simp only [bodyItems, normBody, hbv, if_true, List.foldl_nil]
    · simp only [bodyItems, normBody, hbv, if_false, List.foldl_cons, List.foldl_nil]
      rfl

theorem foldl_extItems (ob : Option (List (String × CVal))) (mm : Message) :
    (extItems ob).foldl applyField mm =
      (match normExt ob with
       | none => mm
       | some kvs => { mm with ext := some kvs }) := by
  rcases ob with _ | ⟨_ | ⟨kv, kvs⟩⟩ <;> rfl

theorem normOptBytes_getD (ob : Option (List Nat)) :
    (normOptBytes ob).getD [] = ob.getD [] := by
  rcases ob with _ | ⟨_ | ⟨b, bs⟩⟩ <;> rfl

theorem applyField_tag1 (mm : Message) (n : Nat) :
    applyField mm (1, .uintItem n) = { mm with v := n } := rfl

theorem applyField_tag2 (mm : Message) (bs : List Nat) :
    applyField mm (2, .bytesItem bs) = { mm with id := bs } := rfl

theorem applyField_tag3 (mm : Message) (n : Nat) :
    applyField mm (3, .uintItem n) = { mm with type := n } := rfl

theorem applyField_tag4 (mm : Message) (n : Nat) :
    applyField mm (4, .uintItem n) = { mm with ts := n } := rfl

theorem applyField_tag5 (mm : Message) (n : Nat) :
    applyField mm (5, .uintItem n) = { mm with ttl := n } := rfl

theorem applyField_tag6 (mm : Message) (s : String) :
    applyField mm (6, .textItem s) = { mm with «from» := s } := rfl

theorem applyField_tag7 (mm : Message) (s : String) :
    applyField mm (7, .textItem s) = { mm with «to» := s } := rfl

/-- C3 (counterexample): the round trip is not the identity on every tagged
field.  A body holding a non-negative Go signed integer comes back as the
unsigned form, and a body that encodes to an empty CBOR value (here
`false`) is omitted by `omitempty` and decodes as absent — so
`decode(encode(m))` differs from `m` at the body field. -/
theorem CBORMarshal_roundtrip_counterexample :
    (Message.CBORUnmarshal
        (Message.CBORMarshal { zeroMessage with body := some (.cint 5) })).body =
      some (.cuint 5) ∧
    ({ zeroMessage with body := some (.cint 5) } : Message).body = some (.cint 5) ∧
    ¬ Message.FieldEq
        (Message.CBORUnmarshal
          (Message.CBORMarshal { zeroMessage with body := some (.cint 5) }))
        { zeroMessage with body := some (.cint 5) } ∧
    (Message.CBORUnmarshal
        (Message.CBORMarshal { zeroMessage with body := some (.cbool false) })).body =
      none := by
  refine ⟨by decide, by decide, by decide, by decide⟩

set_option maxHeartbeats 1600000 in
/-- C3 (as amended): one round trip through the codec normalizes the
message and otherwise preserves every tagged field: the seven mandatory
fields come back unchanged; each optional byte-string field comes back
byte-for-byte equal in the `bytes.Equal` sense of the repository's tests
(a present empty slice decodes as absent); the ext map comes back with its
entry values in canonical decoded form (absent when empty); and the body
comes back in canonical decoded form, or absent when it encodes to an
empty CBOR value. -/
theorem CBORMarshal_roundtrip_norm (m : Message) :
    Message.CBORUnmarshal (Message.CBORMarshal m) =
      { v := m.v, id := m.id, type := m.type, ts := m.ts, ttl := m.ttl,
        «from» := m.«from», «to» := m.«to»,
        replyTo := normOptBytes m.replyTo, threadID := normOptBytes m.threadID,
        sig := normOptBytes m.sig, body := normBody m.body,
        ext := normExt m.ext } ∧
    optBytesEqv (Message.CBORUnmarshal (Message.CBORMarshal m)).replyTo
      m.replyTo ∧
    optBytesEqv (Message.CBORUnmarshal (Message.CBORMarshal m)).threadID
      m.threadID ∧
    optBytesEqv (Message.CBORUnmarshal (Message.CBORMarshal m)).sig m.sig := by
  have hh : List.foldl applyField zeroMessage
      [(1, .uintItem m.v), (2, .bytesItem m.id), (3, .uintItem m.type),
       (4, .uintItem m.ts), (5, .uintItem m.ttl), (6, .textItem m.«from»),
       (7, .textItem m.«to»)] =
      ⟨m.v, m.id, m.type, m.ts, m.ttl, m.«from», m.«to»,
       none, none, none, none, none⟩ := by
    simp only [List.foldl_cons, List.foldl_nil, applyField_tag1, applyField_tag2,
      applyField_tag3, applyField_tag4, applyField_tag5, applyField_tag6,
      applyField_tag7]
    rfl
  have hmain : Message.CBORUnmarshal (Message.CBORMarshal m) =
      { v := m.v, id := m.id, type := m.type, ts := m.ts, ttl := m.ttl,
        «from» := m.«from», «to» := m.«to»,
        replyTo := normOptBytes m.replyTo, threadID := normOptBytes m.threadID,
        sig := normOptBytes m.sig, body := normBody m.body,
        ext := normExt m.ext } := by
    rw [Message.CBORUnmarshal, Message.CBORMarshal]
    simp only [List.foldl_append]
    rw [hh, foldl_optBytesItems8, foldl_optBytesItems9, foldl_optBytesItems10,
      foldl_bodyItems, foldl_extItems]
    cases h8 : normOptBytes m.replyTo <;> cases h9 : normOptBytes m.threadID <;>
      cases h10 : normOptBytes m.sig <;> cases hb : normBody m.body <;>
      cases hx : normExt m.ext <;> rfl
  refine ⟨hmain, ?_, ?_, ?_⟩ <;>
    simp [hmain, optBytesEqv, normOptBytes_getD]

/-- The run for the expired-message scenario: alice and bob connected,
empty store, no registered routes. -/
def c1State : RelayState :=
  ⟨[], [("conn-alice", ⟨"conn-alice", "did:web:alice", 0, 0, []⟩),
        ("conn-bob", ⟨"conn-bob", "did:web:bob", 0, 0, []⟩)], []⟩

/-- Alice's request at `now = 200000000` ms with `ts = now - 120000` and
`ttl = 60000`, expired per the data model's expiry rule. -/
def c1Msg : ServerMessage :=
  ⟨"m1", "request", 199880000, "did:web:alice", "did:web:bob", "",
   [104, 105], [], "", "5.0", [], 60000⟩

/-- C1 (code bug): the message path never consults the expiry rule.  A
payload message that `is_expired` (the data model's `Message.IsExpired`)
classifies as expired at processing time — `ts = now - 120000`,
`ttl = 60000` — is nevertheless saved to the store and forwarded to the
online recipient by `handleWebSocketMessage`/`handleRequest`, where the
claim requires a silent discard with the store unchanged. -/
theorem handleRequest_storesAndForwardsExpired :
    Message.IsExpired
      { zeroMessage with ts := 199880000, ttl := 60000 } 200000000 = true ∧
    (handleWebSocketMessage 300000000000 c1State "conn-alice" c1Msg
      200000000).1.store = [("m1", ⟨c1Msg, some 60000200000000⟩)] ∧
    (handleWebSocketMessage 300000000000 c1State "conn-alice" c1Msg
      200000000).2.1 = [.send "conn-bob" c1Msg] := by
  refine ⟨by decide, by decide, by decide⟩

/-- Alice's fresh request with `ttl = 60000`, no destination, for the
retention computation. -/
def c2Msg : ServerMessage :=
  ⟨"m2", "request", 0, "did:web:alice", "", "", [], [], "", "5.0", [], 60000⟩

/-- C2 (code bug): the retention `handleRequest` hands to `store.Save` for
`msg.ttl = 60000` is `time.Duration(60000) * time.Second` — 60000 seconds
(6 * 10^13 ns) — where the data model's millisecond TTL calls for 60000 ms
(6 * 10^10 ns); the stored entry's expiry shows the 1000-fold value.  The
`ttl = 0` fallback to the configured default is as claimed. -/
theorem handleRequest_retention_seconds_not_millis :
    effectiveRetentionNs 60000 300000000000 = 60000000000000 ∧
    (60000 : Int) * 1000000 = 60000000000 ∧
    (60000000000000 : Int) ≠ 60000000000 ∧
    (handleRequest 300000000000 ⟨[], [], []⟩ "conn-alice" c2Msg 0).1.store =
      [("m2", ⟨c2Msg, some 60000000000000⟩)] ∧
    effectiveRetentionNs 0 300000000000 = 300000000000 := by
  refine ⟨by decide, by decide, by decide, by decide, by decide⟩

end AmpRelay
